import Mathlib

/-!
Shallow embedding of the delivery-agent assignment and live-location
subsystem of the food-ordering server (src/server.js).

The embedded pieces are:
* the haversine distance helper `dist` (server.js lines 708-720 and
  1682-1693), modelled over the real numbers;
* the candidate construction, radius filter and (load, distance) ranking
  of the assignment endpoints (lines 730-745 and 1696-1711);
* the admin assignment endpoint `POST /api/admin/orders/:orderId/assign`
  (lines 1635-1716), modelled as a pure state-passing function over an
  order store;
* the live-location endpoint `POST /api/delivery/location`
  (lines 2247-2259; the duplicate registration at line 2306 is shadowed,
  Express dispatches to the first registered handler) together with the
  in-memory store `deliveryAgents` and the snapshot endpoint
  `GET /api/delivery/active` (lines 2262-2270).

JavaScript floating-point arithmetic is idealised: the trigonometric
distance function is modelled over ℝ, while the candidate records that the
ranking code actually manipulates carry their already-computed distance as
a rational number, so that the ranking pipeline stays executable.
-/

namespace Tindo

/-! ### Candidates and the ranking pipeline

The endpoints build `candidates = agents.map(a => ({id, d, load}))`, filter
by `c.d <= ASSIGN_MAX_KM`, sort with the comparator
`(a,b) => a.load - b.load || a.d - b.d` and take `candidates[0]`.
`Array.prototype.sort` is stable (ECMAScript 2019), so the element at
index 0 after sorting is the first element of the original array that is
minimal for the lexicographic (load, d) order.  `selectBest` computes that
element directly by a left fold that replaces the current best only when a
later candidate is strictly smaller in the lexicographic order. -/

/-- A ranking candidate as built by the assignment endpoints:
agent id, computed distance in km, current workload. -/
structure Candidate where
  id : ℕ
  d : ℚ
  load : ℕ
  deriving DecidableEq, Repr

/-- Strict lexicographic (load, distance) comparison: the JS comparator
`a.load - b.load || a.d - b.d` reports `n` before `cur`. -/
def lexLt (n cur : Candidate) : Prop :=
  n.load < cur.load ∨ (n.load = cur.load ∧ n.d < cur.d)

instance (n cur : Candidate) : Decidable (lexLt n cur) := by
  unfold lexLt; infer_instance

/-- Reflexive lexicographic (load, distance) order used to state minimality. -/
def lexLe (a b : Candidate) : Prop :=
  a.load < b.load ∨ (a.load = b.load ∧ a.d ≤ b.d)

instance (a b : Candidate) : Decidable (lexLe a b) := by
  unfold lexLe; infer_instance

/-- One step of the fold: keep `cur` unless the later candidate `n` is
strictly better; equal candidates keep the earlier one, exactly as a
stable sort does. -/
def pickBetter (cur n : Candidate) : Candidate :=
  if lexLt n cur then n else cur

/-- The candidate at index 0 after the stable sort
`candidates.sort((a,b)=> a.load - b.load || a.d - b.d)`:
the first candidate of the list that is lexicographically minimal. -/
def selectBest : List Candidate → Option Candidate
  | [] => none
  | c :: cs => some (cs.foldl pickBetter c)

/-- AssignmentEngine core: filter by the maximum radius
(`candidates.filter(c => c.d <= ASSIGN_MAX_KM)`), then pick the stable
(load, distance) minimum. `none` is the NoEligibleAgent outcome. -/
def assignEngine (maxKm : ℚ) (cands : List Candidate) : Option Candidate :=
  selectBest (cands.filter fun c => decide (c.d ≤ maxKm))

theorem lexLe_refl (a : Candidate) : lexLe a a := Or.inr ⟨rfl, le_refl _⟩

theorem lexLe_trans {a b c : Candidate} (h1 : lexLe a b) (h2 : lexLe b c) :
    lexLe a c := by
  rcases h1 with h1 | ⟨h1, h1d⟩
  · rcases h2 with h2 | ⟨h2, _⟩
    · exact Or.inl (h1.trans h2)
    · exact Or.inl (h2 ▸ h1)
  · rcases h2 with h2 | ⟨h2, h2d⟩
    · exact Or.inl (h1 ▸ h2)
    · exact Or.inr ⟨h1.trans h2, h1d.trans h2d⟩

theorem pickBetter_le_left (cur n : Candidate) :
    lexLe (pickBetter cur n) cur := by
  unfold pickBetter
  split
  · rename_i h
    rcases h with h | ⟨h, hd⟩
    · exact Or.inl h
    · exact Or.inr ⟨h, le_of_lt hd⟩
  · exact lexLe_refl cur

theorem pickBetter_le_right (cur n : Candidate) :
    lexLe (pickBetter cur n) n := by
  unfold pickBetter
  split
  · exact lexLe_refl n
  · rename_i h
    unfold lexLt at h
    push_neg at h
    obtain ⟨h1, h2⟩ := h
    rcases lt_or_eq_of_le h1 with hlt | he
    · exact Or.inl hlt
    · exact Or.inr ⟨he, h2 he.symm⟩

theorem pickBetter_eq_or (cur n : Candidate) :
    pickBetter cur n = cur ∨ pickBetter cur n = n := by
  unfold pickBetter; split
  · exact Or.inr rfl
  · exact Or.inl rfl

theorem foldl_pickBetter_mem (cs : List Candidate) :
    ∀ c : Candidate, cs.foldl pickBetter c ∈ c :: cs := by
  induction cs with
  | nil => intro c; simp
  | cons n rest ih =>
    intro c
    simp only [List.foldl_cons]
    rcases List.mem_cons.mp (ih (pickBetter c n)) with h | h
    · rw [h]
      rcases pickBetter_eq_or c n with he | he <;> rw [he]
      · exact List.mem_cons_self _ _
      · exact List.mem_cons_of_mem _ (List.mem_cons_self _ _)
    · exact List.mem_cons_of_mem _ (List.mem_cons_of_mem _ h)

theorem foldl_pickBetter_min (cs : List Candidate) :
    ∀ c : Candidate, ∀ x ∈ c :: cs, lexLe (cs.foldl pickBetter c) x := by
  induction cs with
  | nil =>
    intro c x hx
    rw [List.mem_singleton.mp hx]
    exact lexLe_refl c
  | cons n rest ih =>
    intro c x hx
    simp only [List.foldl_cons]
    have hhead : lexLe (rest.foldl pickBetter (pickBetter c n)) (pickBetter c n) :=
      ih (pickBetter c n) _ (List.mem_cons_self _ _)
    rcases List.mem_cons.mp hx with rfl | hx
    · exact lexLe_trans hhead (pickBetter_le_left _ _)
    · rcases List.mem_cons.mp hx with rfl | hx
      · exact lexLe_trans hhead (pickBetter_le_right _ _)
      · exact ih (pickBetter c n) x (List.mem_cons_of_mem _ hx)

theorem selectBest_mem {l : List Candidate} {c : Candidate}
    (h : selectBest l = some c) : c ∈ l := by
  cases l with
  | nil => simp [selectBest] at h
  | cons a as =>
    simp only [selectBest, Option.some.injEq] at h
    exact h ▸ foldl_pickBetter_mem as a

theorem selectBest_min {l : List Candidate} {c : Candidate}
    (h : selectBest l = some c) : ∀ x ∈ l, lexLe c x := by
  cases l with
  | nil => simp [selectBest] at h
  | cons a as =>
    simp only [selectBest, Option.some.injEq] at h
    exact h ▸ foldl_pickBetter_min as a

theorem assignEngine_mem {maxKm : ℚ} {cands : List Candidate} {c : Candidate}
    (h : assignEngine maxKm cands = some c) :
    c ∈ cands ∧ c.d ≤ maxKm := by
  have hm := selectBest_mem h
  rw [List.mem_filter] at hm
  exact ⟨hm.1, of_decide_eq_true hm.2⟩

/-! ### GeoMath: the haversine helper `dist`

Both assignment endpoints define
`toRad = d => d * Math.PI / 180` and
`dist(aLat,aLng,bLat,bLng)` via the haversine formula with R = 6371 km
(server.js lines 708-720 and 1682-1693).  Floating point is idealised as
the real numbers.  `Math.atan2` is modelled by its mathematical
definition by cases on the sign of the second argument. -/

/-- Degrees to radians, `(d * Math.PI) / 180`. -/
noncomputable def toRad (d : ℝ) : ℝ := d * Real.pi / 180

/-- Mathematical model of `Math.atan2 y x` (signed zeros ignored). -/
noncomputable def atan2 (y x : ℝ) : ℝ :=
  if 0 < x then Real.arctan (y / x)
  else if x < 0 then
    (if 0 ≤ y then Real.arctan (y / x) + Real.pi
     else Real.arctan (y / x) - Real.pi)
  else
    (if 0 < y then Real.pi / 2 else if y < 0 then -(Real.pi / 2) else 0)

/-- The intermediate `sa` of the haversine computation:
`sin(dLat/2)^2 + cos(toRad aLat) * cos(toRad bLat) * sin(dLng/2)^2`
with `dLat = toRad (bLat - aLat)` and `dLng = toRad (bLng - aLng)`. -/
noncomputable def haverSa (aLat aLng bLat bLng : ℝ) : ℝ :=
  Real.sin (toRad (bLat - aLat) / 2) * Real.sin (toRad (bLat - aLat) / 2) +
  Real.cos (toRad aLat) * Real.cos (toRad bLat) *
    Real.sin (toRad (bLng - aLng) / 2) * Real.sin (toRad (bLng - aLng) / 2)

/-- Haversine distance `dist` of the source:
`c = 2 * atan2(sqrt(sa), sqrt(1 - sa))`, result `R * c` with R = 6371. -/
noncomputable def dist (aLat aLng bLat bLng : ℝ) : ℝ :=
  6371 * (2 * atan2 (Real.sqrt (haverSa aLat aLng bLat bLng))
      (Real.sqrt (1 - haverSa aLat aLng bLat bLng)))

theorem haverSa_comm (aLat aLng bLat bLng : ℝ) :
    haverSa aLat aLng bLat bLng = haverSa bLat bLng aLat aLng := by
  unfold haverSa toRad
  have key : ∀ u v : ℝ,
      Real.sin ((u - v) * Real.pi / 180 / 2) = -Real.sin ((v - u) * Real.pi / 180 / 2) := by
    intro u v
    have h : (u - v) * Real.pi / 180 / 2 = -((v - u) * Real.pi / 180 / 2) := by ring
    rw [h, Real.sin_neg]
  rw [key bLat aLat, key bLng aLng]
  ring

theorem haverSa_self (lat lng : ℝ) : haverSa lat lng lat lng = 0 := by
  unfold haverSa toRad
  simp

theorem atan2_zero_one : atan2 0 1 = 0 := by
  unfold atan2
  rw [if_pos one_pos]
  simp

/-! ### AssignmentService: the admin assignment endpoint

`POST /api/admin/orders/:orderId/assign` (server.js lines 1635-1716) is
modelled as a pure state-passing function over an order store.  The
database reads (order row, restaurant row, active agents, workload
aggregation) become explicit inputs; the single SQL write
`UPDATE orders SET agent_id = ?, status = 'Confirmed' WHERE id = ?`
becomes `updateOrder`.  The endpoint computes each candidate distance with
the haversine helper; here the distance function is a parameter `f` of the
model (any function of the four coordinates), which keeps the state
machine executable while covering the haversine instance. -/

/-- Order status values used by the dispatch subsystem. -/
inductive OrderStatus
  | Pending
  | Confirmed
  | Picked
  | Delivered
  | Cancelled
  deriving DecidableEq, Repr

/-- An order row: restaurant reference, assigned agent, status
(columns touched by the assignment endpoint). -/
structure Order where
  restaurant_id : Option ℕ
  agent_id : Option ℕ
  status : OrderStatus
  deriving DecidableEq, Repr

/-- The orders table, keyed by order id. -/
abbrev OrderStore := List (ℕ × Order)

/-- Keyed lookup in an association list (first matching row wins,
as for a primary-key select). -/
def lookupRow {α : Type} (m : List (ℕ × α)) (k : ℕ) : Option α :=
  (m.find? fun p => p.1 == k).map Prod.snd

/-- Read one order row, `SELECT ... FROM orders WHERE id = ?`. -/
def getOrder (s : OrderStore) (oid : ℕ) : Option Order := lookupRow s oid

/-- The write `UPDATE orders SET agent_id = ?, status = 'Confirmed'
WHERE id = ?`: replaces the row with the matching id, touches no other
row and no other column. -/
def updateOrder (s : OrderStore) (oid : ℕ) (o : Order) : OrderStore :=
  s.map fun p => if p.1 == oid then (oid, o) else p

/-- An active agent row with its stored coordinates,
`SELECT id, lat, lng FROM agents WHERE status = 'Active' AND ...`. -/
structure AgentRow where
  id : ℕ
  lat : ℚ
  lng : ℚ
  deriving DecidableEq, Repr

/-- The workload query result (`loadMap`): on success a list of
(agent id, active-order count) rows.  The endpoint wraps the query in
`try { ... } catch (_) {}` around an initially empty map, so a failed
query leaves the map empty. -/
def loadMapFrom (q : Except String (List (ℕ × ℕ))) : List (ℕ × ℕ) :=
  match q with
  | Except.ok rows => rows
  | Except.error _ => []

/-- Candidate construction
`{id: a.id, d: dist(rlat, rlng, a.lat, a.lng), load: loadMap.get(a.id) ?? 0}`. -/
def candOf (f : ℚ → ℚ → ℚ → ℚ → ℚ) (rlat rlng : ℚ)
    (loadMap : List (ℕ × ℕ)) (a : AgentRow) : Candidate :=
  ⟨a.id, f rlat rlng a.lat a.lng, (lookupRow loadMap a.id).getD 0⟩

/-- The failure responses of the admin assignment endpoint, in the order
the handler can produce them. -/
inductive AssignError
  | orderNotFound
  | missingRestaurantRef
  | restaurantLocationUnavailable
  | noActiveAgents
  | noAgentsWithinRadius (radiusKm : ℚ)
  deriving DecidableEq, Repr

/-- The admin assignment endpoint: looks up the order, its restaurant
coordinates and the active agents, builds candidates, filters by the
radius, ranks by (load, distance) and on success writes agent reference
plus status Confirmed.  Returns the response together with the resulting
order store; every failure leaves the store untouched. -/
def adminAssign (maxKm : ℚ) (f : ℚ → ℚ → ℚ → ℚ → ℚ)
    (restaurants : List (ℕ × (Option ℚ × Option ℚ)))
    (agents : List AgentRow) (loadQuery : Except String (List (ℕ × ℕ)))
    (store : OrderStore) (orderId : ℕ) :
    Except AssignError (ℕ × ℚ) × OrderStore :=
  match getOrder store orderId with
  | none => (Except.error AssignError.orderNotFound, store)
  | some o =>
    match o.restaurant_id with
    | none => (Except.error AssignError.missingRestaurantRef, store)
    | some rid =>
      match lookupRow restaurants rid with
      | some (some rlat, some rlng) =>
        if agents.isEmpty then (Except.error AssignError.noActiveAgents, store)
        else
          match assignEngine maxKm
              (agents.map (candOf f rlat rlng (loadMapFrom loadQuery))) with
          | none => (Except.error (AssignError.noAgentsWithinRadius maxKm), store)
          | some best =>
            (Except.ok (best.id, best.d),
             updateOrder store orderId
               ⟨o.restaurant_id, some best.id, OrderStatus.Confirmed⟩)
      | _ => (Except.error AssignError.restaurantLocationUnavailable, store)

/-! ### LocationBroadcastHub: live agent locations

`POST /api/delivery/location` (server.js lines 2247-2259) and
`GET /api/delivery/active` (lines 2262-2270) over the process-wide object
`deliveryAgents`.  A JavaScript object keyed by agent id holds exactly one
entry per key: assignment replaces the value of an existing key in place,
otherwise appends a new key.  The handler guards with the truthiness test
`if (!agent_id || !lat || !lng)`, so absent fields and the number 0 are
both rejected; no range validation is performed.  The duplicate route
registration at line 2306 is unreachable: Express dispatches to the first
registered handler for a method and path. -/

/-- One stored location `{ lat, lng, updatedAt }`. -/
structure LocEntry where
  lat : ℚ
  lng : ℚ
  updatedAt : ℕ
  deriving DecidableEq, Repr

/-- The `deliveryAgents` object, keyed by agent id. -/
abbrev LocStore := List (ℕ × LocEntry)

/-- JavaScript object assignment `deliveryAgents[agent_id] = {...}`:
replace in place when the key exists, append otherwise. -/
def upsertLoc (store : LocStore) (aid : ℕ) (e : LocEntry) : LocStore :=
  if store.any (fun p => p.1 == aid) then
    store.map fun p => if p.1 == aid then (aid, e) else p
  else store ++ [(aid, e)]

/-- Outcome of `POST /api/delivery/location`: 200 with success, or the
400 response for missing (falsy) fields. -/
inductive ReportResult
  | ok
  | missingData
  deriving DecidableEq, Repr

/-- The location-report handler.  Absent fields model absent JSON keys;
value 0 is falsy in the guard `!agent_id || !lat || !lng` exactly like an
absent field.  `now` is the arrival time `Date.now()`. -/
def reportLocation (store : LocStore) (agent_id : Option ℕ)
    (lat lng : Option ℚ) (now : ℕ) : ReportResult × LocStore :=
  match agent_id, lat, lng with
  | some aid, some la, some ln =>
    if aid = 0 ∨ la = 0 ∨ ln = 0 then (ReportResult.missingData, store)
    else (ReportResult.ok, upsertLoc store aid ⟨la, ln, now⟩)
  | _, _, _ => (ReportResult.missingData, store)

/-- One inbound report as received by the endpoint. -/
structure LocReport where
  agent_id : Option ℕ
  lat : Option ℚ
  lng : Option ℚ
  t : ℕ
  deriving DecidableEq, Repr

/-- A sequence of reports processed in arrival order. -/
def processReports (store : LocStore) (rs : List LocReport) : LocStore :=
  rs.foldl (fun s r => (reportLocation s r.agent_id r.lat r.lng r.t).2) store

/-- The snapshot read `GET /api/delivery/active`:
`Object.entries(deliveryAgents).map(...)`. -/
def snapshot (store : LocStore) : List (ℕ × ℚ × ℚ × ℕ) :=
  store.map fun p => (p.1, p.2.lat, p.2.lng, p.2.updatedAt)

/-- The store holds no two entries with the same agent id. -/
def keysNodup (store : LocStore) : Prop := (store.map Prod.fst).Nodup

instance (store : LocStore) : Decidable (keysNodup store) := by
  unfold keysNodup; infer_instance

theorem find?_mapUpdate (s : LocStore) (aid : ℕ) (e : LocEntry)
    (h : s.any (fun p => p.1 == aid) = true) :
    (s.map fun p => if p.1 == aid then (aid, e) else p).find?
      (fun p => p.1 == aid) = some (aid, e) := by
  induction s with
  | nil => simp at h
  | cons p rest ih =>
    simp only [List.map_cons]
    by_cases hp : p.1 = aid
    · rw [if_pos (beq_iff_eq.mpr hp)]
      exact List.find?_cons_of_pos _ (by simp)
    · rw [if_neg (by simp [hp])]
      rw [List.find?_cons_of_neg _ (by simp [hp])]
      simp only [List.any_cons, Bool.or_eq_true] at h
      rcases h with h | h
      · exact absurd (beq_iff_eq.mp h) hp
      · exact ih h

theorem lookupRow_upsertLoc (s : LocStore) (aid : ℕ) (e : LocEntry) :
    lookupRow (upsertLoc s aid e) aid = some e := by
  unfold upsertLoc
  by_cases h : s.any (fun p => p.1 == aid) = true
  · rw [if_pos h]
    unfold lookupRow
    rw [find?_mapUpdate s aid e h]
    rfl
  · rw [if_neg h]
    unfold lookupRow
    have hn : s.find? (fun p => p.1 == aid) = none := by
      rw [List.find?_eq_none]
      intro x hx hc
      exact h (List.any_eq_true.mpr ⟨x, hx, hc⟩)
    rw [List.find?_append, hn]
    simp

theorem keys_mapUpdate (s : LocStore) (aid : ℕ) (e : LocEntry) :
    (s.map fun p => if p.1 == aid then (aid, e) else p).map Prod.fst
      = s.map Prod.fst := by
  induction s with
  | nil => rfl
  | cons p rest ih =>
    simp only [List.map_cons]
    by_cases hp : p.1 = aid
    · rw [if_pos (beq_iff_eq.mpr hp), ih, hp]
    · rw [if_neg (by simp [hp]), ih]

theorem upsertLoc_keysNodup (s : LocStore) (aid : ℕ) (e : LocEntry)
    (h : keysNodup s) : keysNodup (upsertLoc s aid e) := by
  unfold upsertLoc
  by_cases ha : s.any (fun p => p.1 == aid) = true
  · rw [if_pos ha]
    unfold keysNodup at h ⊢
    rw [keys_mapUpdate]
    exact h
  · rw [if_neg ha]
    unfold keysNodup at h ⊢
    rw [List.map_append]
    refine List.Nodup.append h (List.nodup_singleton aid) ?_
    intro x hx hx2
    rw [List.map_singleton, List.mem_singleton] at hx2
    subst hx2
    rw [List.mem_map] at hx
    obtain ⟨p, hp, hpa⟩ := hx
    exact ha (List.any_eq_true.mpr ⟨p, hp, beq_iff_eq.mpr hpa⟩)

theorem reportLocation_keysNodup (s : LocStore) (a : Option ℕ)
    (la ln : Option ℚ) (t : ℕ) (h : keysNodup s) :
    keysNodup (reportLocation s a la ln t).2 := by
  cases a with
  | none => exact h
  | some aid =>
    cases la with
    | none => exact h
    | some l1 =>
      cases ln with
      | none => exact h
      | some l2 =>
        simp only [reportLocation]
        split
        · exact h
        · exact upsertLoc_keysNodup s aid ⟨l1, l2, t⟩ h

theorem processReports_keysNodup (rs : List LocReport) :
    ∀ s : LocStore, keysNodup s → keysNodup (processReports s rs) := by
  induction rs with
  | nil => intro s h; exact h
  | cons r rest ih =>
    intro s h
    exact ih _ (reportLocation_keysNodup s r.agent_id r.lat r.lng r.t h)

theorem reportLocation_accept (s : LocStore) (aid : ℕ) (la ln : ℚ) (t : ℕ)
    (ha : aid ≠ 0) (h1 : la ≠ 0) (h2 : ln ≠ 0) :
    reportLocation s (some aid) (some la) (some ln) t
      = (ReportResult.ok, upsertLoc s aid ⟨la, ln, t⟩) := by
  simp only [reportLocation]
  rw [if_neg]
  push_neg
  exact ⟨ha, h1, h2⟩

theorem getOrder_updateOrder {s : OrderStore} {oid : ℕ} {o : Order} (x : Order)
    (h : getOrder s oid = some o) :
    getOrder (updateOrder s oid x) oid = some x := by
  unfold getOrder lookupRow at h ⊢
  unfold updateOrder
  induction s with
  | nil => simp at h
  | cons p rest ih =>
    simp only [List.map_cons]
    by_cases hp : p.1 = oid
    · rw [if_pos (beq_iff_eq.mpr hp)]
      rw [List.find?_cons_of_pos _ (by simp)]
      rfl
    · rw [if_neg (by simp [hp])]
      rw [List.find?_cons_of_neg _ (by simp [hp])]
      rw [List.find?_cons_of_neg _ (by simp [hp])] at h
      exact ih h

theorem mem_snapshot_of_lookupRow {s : LocStore} {aid : ℕ} {e : LocEntry}
    (h : lookupRow s aid = some e) :
    (aid, e.lat, e.lng, e.updatedAt) ∈ snapshot s := by
  unfold lookupRow at h
  cases hf : s.find? (fun p => p.1 == aid) with
  | none => rw [hf] at h; simp at h
  | some pr =>
    rw [hf] at h
    simp only [Option.map_some', Option.some.injEq] at h
    have hpred := List.find?_some hf
    have hp : pr.1 = aid := by simpa using hpred
    have hm : pr ∈ s := List.mem_of_find?_eq_some hf
    unfold snapshot
    exact List.mem_map.mpr ⟨pr, hm, by rw [hp, h]⟩

theorem adminAssign_ok_inv {μ : ℚ} {f : ℚ → ℚ → ℚ → ℚ → ℚ}
    {R : List (ℕ × (Option ℚ × Option ℚ))} {A : List AgentRow}
    {q : Except String (List (ℕ × ℕ))} {store : OrderStore} {oid : ℕ}
    {p : ℕ × ℚ}
    (h : (adminAssign μ f R A q store oid).1 = Except.ok p) :
    ∃ (o : Order) (rid : ℕ) (rlat rlng : ℚ) (best : Candidate),
      getOrder store oid = some o ∧
      o.restaurant_id = some rid ∧
      lookupRow R rid = some (some rlat, some rlng) ∧
      A.isEmpty = false ∧
      assignEngine μ (A.map (candOf f rlat rlng (loadMapFrom q))) = some best ∧
      p = (best.id, best.d) ∧
      adminAssign μ f R A q store oid
        = (Except.ok (best.id, best.d),
           updateOrder store oid ⟨some rid, some best.id, OrderStatus.Confirmed⟩) := by
  unfold adminAssign at h
  split at h
  next heq => simp at h
  next o heq =>
    split at h
    next hr => simp at h
    next rid hr =>
      split at h
      next rlat rlng hl =>
        split at h
        next hA => simp at h
        next hA =>
          split at h
          next he => simp at h
          next best he =>
            have hA2 : A.isEmpty = false := by
              cases hAe : A.isEmpty
              · rfl
              · exact absurd hAe hA
            simp only [Except.ok.injEq] at h
            refine ⟨o, rid, rlat, rlng, best, heq, hr, hl, hA2, he, h.symm, ?_⟩
            rw [show (⟨some rid, some best.id, OrderStatus.Confirmed⟩ : Order)
                  = ⟨o.restaurant_id, some best.id, OrderStatus.Confirmed⟩ from by rw [hr]]
            simp only [adminAssign, heq, hr, hl, hA2, he]
            simp
      next hl => simp at h

/-- C4: the agent returned by a successful assignment has a computed
distance to the pickup coordinate that does not exceed the configured
maximum radius; out-of-radius agents are discarded by the filter before
the ranking, so the reported distance of the winner is at most `maxKm`. -/
theorem c4_assigned_within_radius {μ : ℚ} {f : ℚ → ℚ → ℚ → ℚ → ℚ}
    {R : List (ℕ × (Option ℚ × Option ℚ))} {A : List AgentRow}
    {q : Except String (List (ℕ × ℕ))} {store : OrderStore} {oid : ℕ}
    {aid : ℕ} {dkm : ℚ}
    (h : (adminAssign μ f R A q store oid).1 = Except.ok (aid, dkm)) :
    dkm ≤ μ := by
  obtain ⟨o, rid, rlat, rlng, best, _, _, _, _, he, hp, _⟩ := adminAssign_ok_inv h
  obtain ⟨_, hd⟩ := assignEngine_mem he
  have : dkm = best.d := congrArg Prod.snd hp
  rw [this]
  exact hd

theorem c4_witness : (0 : ℚ) ≤ 10 :=
  @c4_assigned_within_radius 10 (fun _ _ _ _ => 0) [(1, (some 0, some 0))]
    [⟨4, 0, 0⟩] (Except.ok []) [(1, ⟨some 1, none, OrderStatus.Pending⟩)] 1
    4 0 rfl

/-- C5: among the in-radius candidates the engine selects a candidate of
minimal workload, ties in workload broken by smaller distance: every other
in-radius candidate either has strictly larger workload, or equal workload
and a distance at least as large.  In particular a zero-load agent at 3 km
beats a load-2 agent at 0.15 km (see the witness). -/
theorem c5_engine_ranks_load_then_distance {μ : ℚ} {cands : List Candidate}
    {c : Candidate} (h : assignEngine μ cands = some c) :
    ∀ o ∈ cands, o.d ≤ μ → c.load < o.load ∨ (c.load = o.load ∧ c.d ≤ o.d) := by
  intro o ho hod
  exact selectBest_min h o (List.mem_filter.mpr ⟨ho, decide_eq_true hod⟩)

theorem c5_witness :
    (⟨2, 3, 0⟩ : Candidate).load < (⟨1, 1, 2⟩ : Candidate).load ∨
    ((⟨2, 3, 0⟩ : Candidate).load = (⟨1, 1, 2⟩ : Candidate).load ∧
     (⟨2, 3, 0⟩ : Candidate).d ≤ (⟨1, 1, 2⟩ : Candidate).d) :=
  @c5_engine_ranks_load_then_distance 10 [⟨1, 1, 2⟩, ⟨2, 3, 0⟩] ⟨2, 3, 0⟩
    (by decide) ⟨1, 1, 2⟩ (by decide) (by decide)

/-- C6: when the order, restaurant and active-agent reads succeed but
every agent is farther than the maximum radius, the endpoint answers with
the no-agents-within-radius failure carrying the radius used, and the
order store is returned unchanged. -/
theorem c6_no_agent_in_radius {μ : ℚ} {f : ℚ → ℚ → ℚ → ℚ → ℚ}
    {R : List (ℕ × (Option ℚ × Option ℚ))} {A : List AgentRow}
    {q : Except String (List (ℕ × ℕ))} {store : OrderStore} {oid : ℕ}
    {o : Order} {rid : ℕ} {rlat rlng : ℚ}
    (hg : getOrder store oid = some o)
    (hr : o.restaurant_id = some rid)
    (hl : lookupRow R rid = some (some rlat, some rlng))
    (hA : A ≠ [])
    (hfar : ∀ a ∈ A, μ < f rlat rlng a.lat a.lng) :
    adminAssign μ f R A q store oid
      = (Except.error (AssignError.noAgentsWithinRadius μ), store) := by
  have hA2 : A.isEmpty = false := by
    cases A with
    | nil => exact absurd rfl hA
    | cons a as => rfl
  have hfilter : (A.map (candOf f rlat rlng (loadMapFrom q))).filter
      (fun c => decide (c.d ≤ μ)) = [] := by
    rw [List.filter_eq_nil_iff]
    intro c hc
    rw [List.mem_map] at hc
    obtain ⟨a, ha, rfl⟩ := hc
    simp only [candOf, decide_eq_true_eq]
    exact not_le.mpr (hfar a ha)
  have he : assignEngine μ (A.map (candOf f rlat rlng (loadMapFrom q))) = none := by
    unfold assignEngine
    rw [hfilter]
    rfl
  simp only [adminAssign, hg, hr, hl, hA2, he]
  simp

theorem c6_witness :
    adminAssign 10 (fun _ _ _ _ => 400) [(1, (some 0, some 0))] [⟨2, 5, 5⟩]
        (Except.ok []) [(1, ⟨some 1, none, OrderStatus.Pending⟩)] 1
      = (Except.error (AssignError.noAgentsWithinRadius 10),
         [(1, ⟨some 1, none, OrderStatus.Pending⟩)]) :=
  c6_no_agent_in_radius (q := Except.ok []) rfl rfl rfl (by decide) (by decide)

/-- C1 counterexample: the assignment endpoint never rejects an
already-Confirmed order.  With one in-range agent, assigning the
Confirmed order 1 (already carrying agent 9) succeeds and overwrites the
agent reference, and two successive calls on a Pending order both return
success — there is no AlreadyAssigned failure at all. -/
theorem c1_counterexample :
    adminAssign 10 (fun _ _ _ _ => 0) [(1, (some 0, some 0))] [⟨4, 0, 0⟩]
        (Except.ok []) [(1, ⟨some 1, some 9, OrderStatus.Confirmed⟩)] 1
      = (Except.ok (4, 0), [(1, ⟨some 1, some 4, OrderStatus.Confirmed⟩)]) ∧
    (adminAssign 10 (fun _ _ _ _ => 0) [(1, (some 0, some 0))] [⟨4, 0, 0⟩]
        (Except.ok []) [(1, ⟨some 1, none, OrderStatus.Pending⟩)] 1).1
      = Except.ok (4, 0) ∧
    (adminAssign 10 (fun _ _ _ _ => 0) [(1, (some 0, some 0))] [⟨4, 0, 0⟩]
        (Except.ok [])
        (adminAssign 10 (fun _ _ _ _ => 0) [(1, (some 0, some 0))] [⟨4, 0, 0⟩]
          (Except.ok []) [(1, ⟨some 1, none, OrderStatus.Pending⟩)] 1).2 1).1
      = Except.ok (4, 0) :=
  ⟨rfl, rfl, rfl⟩

/-- C1 (amended): the endpoint checks no order status before writing.
Whenever an assign call succeeds, an immediately repeated call on the
resulting store succeeds again with the same selection — the repeat is not
rejected, the write (agent reference, status Confirmed) simply happens
again. -/
theorem c1_assign_twice_no_rejection {μ : ℚ} {f : ℚ → ℚ → ℚ → ℚ → ℚ}
    {R : List (ℕ × (Option ℚ × Option ℚ))} {A : List AgentRow}
    {q : Except String (List (ℕ × ℕ))} {store : OrderStore} {oid : ℕ}
    {p : ℕ × ℚ}
    (h : (adminAssign μ f R A q store oid).1 = Except.ok p) :
    (adminAssign μ f R A q (adminAssign μ f R A q store oid).2 oid).1
      = Except.ok p := by
  obtain ⟨o, rid, rlat, rlng, best, heq, hr, hl, hA2, he, hp, hfull⟩ :=
    adminAssign_ok_inv h
  rw [hfull]
  have hg2 := getOrder_updateOrder
    (⟨some rid, some best.id, OrderStatus.Confirmed⟩ : Order) heq
  simp only [adminAssign, hg2, hl, hA2, he]
  simp [hp]

theorem c1_witness :
    (adminAssign 10 (fun _ _ _ _ => 0) [(1, (some 0, some 0))] [⟨4, 0, 0⟩]
        (Except.ok [])
        (adminAssign 10 (fun _ _ _ _ => 0) [(1, (some 0, some 0))] [⟨4, 0, 0⟩]
          (Except.ok []) [(2, ⟨some 1, none, OrderStatus.Pending⟩)] 2).2 2).1
      = Except.ok (4, 0) :=
  @c1_assign_twice_no_rejection 10 (fun _ _ _ _ => 0) [(1, (some 0, some 0))]
    [⟨4, 0, 0⟩] (Except.ok []) [(2, ⟨some 1, none, OrderStatus.Pending⟩)] 2
    (4, 0) rfl

/-- C2 counterexample: two candidates with equal workload and equal
distance, the higher agent id listed first: the engine selects the
first-listed candidate with id 5, not the lower id 3. -/
theorem c2_counterexample :
    assignEngine 10 [⟨5, 1, 0⟩, ⟨3, 1, 0⟩] = some ⟨5, 1, 0⟩ ∧
    assignEngine 10 [⟨5, 1, 0⟩, ⟨3, 1, 0⟩] ≠ some ⟨3, 1, 0⟩ :=
  ⟨rfl, by decide⟩

/-- C2 (amended): ties in both workload and distance are broken by
position in the candidate list — the stable sort keeps the earlier
candidate, so of two tied in-range candidates the first-listed one is
selected; the agent id is never consulted. -/
theorem c2_tie_broken_by_list_position (μ : ℚ) (a b : Candidate)
    (h1 : a.load = b.load) (h2 : a.d = b.d) (h3 : a.d ≤ μ) :
    assignEngine μ [a, b] = some a := by
  have hnot : ¬ lexLt b a := by
    unfold lexLt
    push_neg
    exact ⟨le_of_eq h1, fun _ => le_of_eq h2⟩
  have e1 : List.filter (fun c => decide (c.d ≤ μ)) [a, b] = [a, b] := by
    simp [List.filter_cons, h3, h2 ▸ h3]
  unfold assignEngine
  rw [e1]
  unfold selectBest
  simp only [List.foldl]
  unfold pickBetter
  rw [if_neg hnot]

theorem c2_witness : assignEngine 7 [⟨9, 2, 1⟩, ⟨4, 2, 1⟩] = some ⟨9, 2, 1⟩ :=
  c2_tie_broken_by_list_position 7 ⟨9, 2, 1⟩ ⟨4, 2, 1⟩ rfl rfl (by decide)

/-- C3 counterexample: a location report with the out-of-range latitude
95 is not rejected: it is accepted with success and stored, changing the
agent location store. -/
theorem c3_counterexample :
    reportLocation [] (some 7) (some 95) (some 78) 0
      = (ReportResult.ok, [(7, ⟨95, 78, 0⟩)]) ∧
    (reportLocation [] (some 7) (some 95) (some 78) 0).2 ≠ [] :=
  ⟨rfl, by decide⟩

/-- C3 (amended): the location endpoint validates only presence and
truthiness of its fields, never coordinate ranges: a report with latitude
95 and any present nonzero agent id and longitude succeeds, upserts the
store, and afterwards the store holds the out-of-range coordinate. -/
theorem c3_no_range_validation (s : LocStore) (a : ℕ) (g : ℚ) (t : ℕ)
    (ha : a ≠ 0) (hg : g ≠ 0) :
    reportLocation s (some a) (some 95) (some g) t
      = (ReportResult.ok, upsertLoc s a ⟨95, g, t⟩) ∧
    lookupRow (reportLocation s (some a) (some 95) (some g) t).2 a
      = some ⟨95, g, t⟩ := by
  have h95 : (95 : ℚ) ≠ 0 := by norm_num
  have hacc := reportLocation_accept s a 95 g t ha h95 hg
  refine ⟨hacc, ?_⟩
  rw [hacc]
  exact lookupRow_upsertLoc s a ⟨95, g, t⟩

theorem c3_witness :
    reportLocation [] (some 8) (some 95) (some 78) 3
      = (ReportResult.ok, upsertLoc [] 8 ⟨95, 78, 3⟩) ∧
    lookupRow (reportLocation [] (some 8) (some 95) (some 78) 3).2 8
      = some ⟨95, 78, 3⟩ :=
  c3_no_range_validation [] 8 78 3 (by decide) (by decide)

/-- C7: the haversine distance of the source is symmetric in its two
coordinate pairs, and the distance from any coordinate to itself is zero
(spherical Earth of radius 6371 km). -/
theorem c7_dist_symm_and_self_zero :
    (∀ aLat aLng bLat bLng : ℝ,
        dist aLat aLng bLat bLng = dist bLat bLng aLat aLng) ∧
    (∀ lat lng : ℝ, dist lat lng lat lng = 0) := by
  constructor
  · intro aLat aLng bLat bLng
    unfold dist
    rw [haverSa_comm]
  · intro lat lng
    unfold dist
    rw [haverSa_self, Real.sqrt_zero, sub_zero, Real.sqrt_one, atan2_zero_one]
    ring

/-- C8: across any sequence of reports the agent location store keeps at
most one entry per agent id, and after two successive accepted reports for
the same agent the stored entry — and hence the snapshot — shows only the
second report, regardless of the timestamps carried by the reports. -/
theorem c8_last_write_wins (s : LocStore) (rs : List LocReport)
    (a : ℕ) (x1 y1 x2 y2 : ℚ) (t1 t2 : ℕ)
    (hnd : keysNodup s) (ha : a ≠ 0) (hx : x2 ≠ 0) (hy : y2 ≠ 0) :
    keysNodup (processReports s rs) ∧
    lookupRow (processReports s
        [⟨some a, some x1, some y1, t1⟩, ⟨some a, some x2, some y2, t2⟩]) a
      = some ⟨x2, y2, t2⟩ ∧
    (a, x2, y2, t2) ∈ snapshot (processReports s
        [⟨some a, some x1, some y1, t1⟩, ⟨some a, some x2, some y2, t2⟩]) := by
  have hlook : lookupRow (processReports s
      [⟨some a, some x1, some y1, t1⟩, ⟨some a, some x2, some y2, t2⟩]) a
      = some ⟨x2, y2, t2⟩ := by
    show lookupRow (reportLocation
        (reportLocation s (some a) (some x1) (some y1) t1).2
        (some a) (some x2) (some y2) t2).2 a = some ⟨x2, y2, t2⟩
    rw [reportLocation_accept _ a x2 y2 t2 ha hx hy]
    exact lookupRow_upsertLoc _ a ⟨x2, y2, t2⟩
  exact ⟨processReports_keysNodup rs s hnd, hlook,
    mem_snapshot_of_lookupRow hlook⟩

theorem c8_witness :
    keysNodup (processReports [] []) ∧
    lookupRow (processReports []
        [⟨some 7, some 1, some 2, 5⟩, ⟨some 7, some 3, some 4, 1⟩]) 7
      = some ⟨3, 4, 1⟩ ∧
    (7, 3, 4, 1) ∈ snapshot (processReports []
        [⟨some 7, some 1, some 2, 5⟩, ⟨some 7, some 3, some 4, 1⟩]) :=
  c8_last_write_wins [] [] 7 1 2 3 4 5 1 (by decide) (by decide) (by decide)
    (by decide)

/-- C9: the truthiness guard of the location endpoint rejects the value 0:
a report whose latitude is 0, or whose longitude is 0 — a valid coordinate
on the equator or prime meridian — is answered with the missing-data 400
response and the store is left unchanged, whatever the other fields are. -/
theorem c9_zero_coordinate_rejected (s : LocStore) (a : Option ℕ)
    (x y : Option ℚ) (t : ℕ) :
    reportLocation s a (some 0) y t = (ReportResult.missingData, s) ∧
    reportLocation s a x (some 0) t = (ReportResult.missingData, s) := by
  constructor
  · cases a with
    | none => rfl
    | some aid =>
      cases y with
      | none => rfl
      | some ln => simp [reportLocation]
  · cases a with
    | none => rfl
    | some aid =>
      cases x with
      | none => rfl
      | some la => simp [reportLocation]

/-- C10: a candidate whose agent id has no row in the workload query
result gets workload 0 (the `?? 0` default); a failed workload query is
swallowed by the catch block, leaving the map empty, so the endpoint
behaves exactly as with an empty workload map — every candidate ranked
with workload 0, assignment decided by distance alone, no collaborator
failure surfaced. -/
theorem c10_workload_defaults (f : ℚ → ℚ → ℚ → ℚ → ℚ) (u v : ℚ)
    (m : List (ℕ × ℕ)) (a : AgentRow) (e : String)
    (μ : ℚ) (R : List (ℕ × (Option ℚ × Option ℚ))) (A : List AgentRow)
    (s : OrderStore) (i : ℕ)
    (h : lookupRow m a.id = none) :
    (candOf f u v m a).load = 0 ∧
    (∀ b : AgentRow, (candOf f u v (loadMapFrom (Except.error e)) b).load = 0) ∧
    adminAssign μ f R A (Except.error e) s i
      = adminAssign μ f R A (Except.ok []) s i := by
  refine ⟨?_, ?_, rfl⟩
  · simp [candOf, h]
  · intro b
    simp [candOf, loadMapFrom, lookupRow]

theorem c10_witness :
    (candOf (fun _ _ _ _ => 0) 0 0 [] ⟨4, 0, 0⟩).load = 0 ∧
    (candOf (fun _ _ _ _ => 0) 0 0
        (loadMapFrom (Except.error "boom")) ⟨9, 1, 1⟩).load = 0 ∧
    adminAssign 10 (fun _ _ _ _ => 0) [] [] (Except.error "boom") [] 1
      = adminAssign 10 (fun _ _ _ _ => 0) [] [] (Except.ok []) [] 1 := by
  have h := c10_workload_defaults (fun _ _ _ _ => 0) 0 0 [] ⟨4, 0, 0⟩ "boom"
    10 [] [] [] 1 rfl
  exact ⟨h.1, h.2.1 ⟨9, 1, 1⟩, h.2.2⟩

end Tindo
